import Mathlib

/-!
Verification of the trust-rooted DID resolver of the trustbloc DID method.

The development shallowly embeds the resolver's data model and operations:
consortium and stakeholder configuration files, the signature-verifying
config service (`ConfigService.GetConsortium` / `GetStakeholder` from
`pkg/vdri/trustbloc/config/signatureconfig`), the endpoint service, the
stakeholder verification step, document canonicalization and the public
`Read` operation of the resolver.

External collaborators (JWS crypto, HTTP, the per-endpoint resolver) are
modelled at their interfaces: a JWS envelope is represented by the set of
keys that produce a valid signature on it, and JWK key bytes are
represented up to the behaviour of the parser (equal bytes parse equally).
-/

namespace TrustblocDID

/-- Raw JWK bytes of a stakeholder public key, modelled up to parser
behaviour: `wellFormed k` stands for a byte string that parses to the key
`k`, `malformed raw` for bytes that fail to parse.  Equality of values of
this type models byte-equality of the raw JWK JSON. -/
inductive JWKBytes where
  | malformed (raw : String)
  | wellFormed (key : String)
deriving DecidableEq, Repr

/-- Model of `jose.JSONWebKey.UnmarshalJSON`: parsing the raw JWK bytes
either yields a key or fails. -/
def parseJWK : JWKBytes → Option String
  | .malformed _ => none
  | .wellFormed k => some k

/-- Model of a JWS multi-signature envelope: the envelope is represented
by the set of keys under which it carries a valid signature. -/
structure JWSEnv where
  signers : List String
deriving DecidableEq, Repr

/-- Model of `jose.JSONWebSignature.VerifyMulti` restricted to one key:
verification succeeds exactly when the envelope carries a valid signature
under that key. -/
def JWSEnv.verifyMulti (env : JWSEnv) (key : String) : Bool :=
  env.signers.contains key

/-- Public key of a consortium member (`models.PublicKey`). -/
structure PublicKey where
  id : String
  jwk : JWKBytes
deriving DecidableEq, Repr

/-- A member entry of a consortium file (`models.StakeholderListElement`). -/
structure StakeholderListElement where
  domain : String
  did : String
  publicKey : PublicKey
deriving DecidableEq, Repr

/-- Consortium policy (`models.ConsortiumPolicy`). -/
structure ConsortiumPolicy where
  numQueries : Nat
deriving DecidableEq, Repr

/-- A consortium file payload (`models.Consortium`). -/
structure Consortium where
  domain : String
  policy : ConsortiumPolicy
  members : List StakeholderListElement
  previous : String
deriving DecidableEq, Repr

/-- A fetched consortium file together with its JWS envelope
(`models.ConsortiumFileData`).  `config` is an `Option` because the Go
field is a nullable pointer, checked by `GetConsortium`. -/
structure ConsortiumFileData where
  config : Option Consortium
  jws : JWSEnv
deriving DecidableEq, Repr

/-- Stakeholder settings (`models.StakeholderSettings`), opaque to the
operations verified here. -/
structure StakeholderSettings where
deriving DecidableEq, Repr

/-- A stakeholder file payload (`models.Stakeholder`). -/
structure Stakeholder where
  domain : String
  did : String
  policy : StakeholderSettings
  endpoints : List String
  previous : String
deriving DecidableEq, Repr

/-- A fetched stakeholder file together with its (possibly absent) JWS
envelope (`models.StakeholderFileData`). -/
structure StakeholderFileData where
  config : Stakeholder
  jws : Option JWSEnv
deriving DecidableEq, Repr

/-- A resolution endpoint (`models.Endpoint`). -/
structure Endpoint where
  url : String
  domain : String
deriving DecidableEq, Repr

/-! ### String containment

The spec states error conditions as "fails with an error containing S".
`strContains hay sub` is a plain executable substring test used to
formalise those statements. -/

/-- Check that `needle` occurs at the start of `hay` (on character lists). -/
def strLeads : List Char → List Char → Bool
  | _, [] => true
  | [], _ :: _ => false
  | h :: ht, n :: nt => h = n && strLeads ht nt

/-- Check that `needle` occurs somewhere in `hay` (on character lists). -/
def strContainsAux : List Char → List Char → Bool
  | [], needle => strLeads [] needle
  | h :: t, needle => strLeads (h :: t) needle || strContainsAux t needle

/-- Substring test on strings: `strContains hay needle = true` iff
`needle` occurs contiguously inside `hay`. -/
def strContains (hay needle : String) : Bool :=
  strContainsAux hay.data needle.data

theorem strLeads_append (s t : List Char) : strLeads (s ++ t) s = true := by
  induction s with
  | nil => cases t <;> rfl
  | cons h ht ih => simp [strLeads, ih]

theorem strContainsAux_of_tail (a : List Char) {rest needle : List Char}
    (h : strContainsAux rest needle = true) :
    strContainsAux (a ++ rest) needle = true := by
  induction a with
  | nil => simpa using h
  | cons x xs ih =>
    cases hx : xs ++ rest with
    | nil => simp [strContainsAux]; right; simpa [hx] using ih
    | cons y ys => simp [strContainsAux]; right; simpa [hx] using ih

theorem strContainsAux_of_parts (pre sub post : List Char) :
    strContainsAux (pre ++ (sub ++ post)) sub = true := by
  apply strContainsAux_of_tail
  cases hs : sub ++ post with
  | nil =>
    have : sub = [] := by cases sub <;> simp_all
    simp [this, strContainsAux, strLeads]
  | cons y ys =>
    have : strLeads (sub ++ post) sub = true := strLeads_append sub post
    simp [strContainsAux, hs] at this ⊢
    exact Or.inl this

theorem strContains_of_parts (pre sub post : String) :
    strContains (pre ++ sub ++ post) sub = true := by
  have hd : (pre ++ sub ++ post).data = pre.data ++ (sub.data ++ post.data) := by
    simp [String.data_append]
  simpa [strContains, hd] using strContainsAux_of_parts pre.data sub.data post.data

/-! ### The signature-verifying config service

Embedding of `ConfigService.GetConsortium` from
`pkg/vdri/trustbloc/config/signatureconfig` (present in the sources).  The
Go loop iterates the members in the random permutation `rand.Perm`; the
embedding takes the permuted member list `order` as an explicit argument
and the theorems quantify over every permutation of the member list. -/

/-- Per-member failure message accumulated by the `GetConsortium` loop,
exactly as built by the source: a parse failure yields
`"bad key for stakeholder: <domain>, "`, a verification failure yields
`"key fails to verify for stakeholder: <domain>, "`, and a success
contributes nothing. -/
def memberErrMsg (env : JWSEnv) (m : StakeholderListElement) : String :=
  match parseJWK m.publicKey.jwk with
  | none => "bad key for stakeholder: " ++ m.domain ++ ", "
  | some key =>
    if env.verifyMulti key then "" else "key fails to verify for stakeholder: " ++ m.domain ++ ", "

/-- Whether a member's declared key parses and validly signs the envelope
(one iteration of the `GetConsortium` loop succeeding). -/
def memberVerifies (env : JWSEnv) (m : StakeholderListElement) : Bool :=
  match parseJWK m.publicKey.jwk with
  | none => false
  | some key => env.verifyMulti key

/-- Concatenation of the per-member failure messages over a member list,
in iteration order. -/
def errsOf (env : JWSEnv) : List StakeholderListElement → String
  | [] => ""
  | m :: rest => memberErrMsg env m ++ errsOf env rest

/-- The verification loop of `ConfigService.GetConsortium`: walk the
members in the given order, skipping (and recording) members whose key
fails to parse or to verify, counting successes, and stopping as soon as
the count reaches `n`.  Returns the final count and the accumulated
error string. -/
def verifyMembersLoop (env : JWSEnv) (n : Nat) :
    List StakeholderListElement → Nat → String → Nat × String
  | [], count, errs => (count, errs)
  | m :: rest, count, errs =>
    match parseJWK m.publicKey.jwk with
    | none =>
      verifyMembersLoop env n rest count
        (errs ++ ("bad key for stakeholder: " ++ m.domain ++ ", "))
    | some key =>
      if env.verifyMulti key then
        if count + 1 = n then (count + 1, errs)
        else verifyMembersLoop env n rest (count + 1) errs
      else
        verifyMembersLoop env n rest count
          (errs ++ ("key fails to verify for stakeholder: " ++ m.domain ++ ", "))

/-- The clamped quorum computed by `GetConsortium`:
`n := numQueries; if n == 0 || n > len(members) then n = len(members)`. -/
def effectiveN (c : Consortium) : Nat :=
  let n := c.policy.numQueries
  if n = 0 ∨ n > c.members.length then c.members.length else n

/-- Signature-quorum check of `ConfigService.GetConsortium`, applied to a
consortium whose file data has already been fetched and found non-nil.
`order` is the member list as permuted by `rand.Perm`. -/
def getConsortiumChecked (cfd : ConsortiumFileData) (c : Consortium)
    (order : List StakeholderListElement) : Except String ConsortiumFileData :=
  let n := effectiveN c
  let r := verifyMembersLoop cfd.jws n order 0 ""
  if r.1 < n then
    .error ("insufficient stakeholder endorsement of consortium config file. errors are: ["
      ++ r.2 ++ "]")
  else
    .ok cfd

/-- Embedding of `ConfigService.GetConsortium`: fetch through the wrapped
config service, reject a nil consortium, then run the quorum check. -/
def ConfigService.GetConsortium
    (inner : String → String → Except String ConsortiumFileData)
    (url domain : String) (order : List StakeholderListElement) :
    Except String ConsortiumFileData :=
  match inner url domain with
  | .error e => .error ("wrapped config service: " ++ e)
  | .ok cfd =>
    match cfd.config with
    | none => .error "consortium is nil"
    | some c => getConsortiumChecked cfd c order

/-- Embedding of `ConfigService.GetStakeholder`: a pure pass-through to
the wrapped config service, performing no verification. -/
def ConfigService.GetStakeholder
    (inner : String → String → Except String StakeholderFileData)
    (url domain : String) : Except String StakeholderFileData :=
  inner url domain

/-- Number of members of a list whose declared key parses and validly
signs the envelope, counted once per member entry. -/
def passCount (env : JWSEnv) (ms : List StakeholderListElement) : Nat :=
  ms.countP (fun m => memberVerifies env m)

theorem passCount_perm (env : JWSEnv) {l1 l2 : List StakeholderListElement}
    (h : l1.Perm l2) : passCount env l1 = passCount env l2 :=
  h.countP_eq _

/-- Loop characterisation, success side: starting strictly below the
quorum, the loop's final count is the smaller of the quorum and the
number of passing members. -/
theorem verifyMembersLoop_count (env : JWSEnv) (n : Nat) :
    ∀ (order : List StakeholderListElement) (count : Nat) (errs : String),
      count < n →
      (verifyMembersLoop env n order count errs).1 = min n (count + passCount env order) := by
  intro order
  induction order with
  | nil =>
    intro count errs h
    simp [verifyMembersLoop, passCount, Nat.min_eq_right (Nat.le_of_lt h)]
  | cons m rest ih =>
    intro count errs h
    simp only [verifyMembersLoop]
    cases hp : parseJWK m.publicKey.jwk with
    | none =>
      have hm : memberVerifies env m = false := by simp [memberVerifies, hp]
      rw [ih count _ h]
      simp [passCount, hm]
    | some key =>
      by_cases hv : env.verifyMulti key = true
      · have hm : memberVerifies env m = true := by simp [memberVerifies, hp, hv]
        simp only [hp, hv, if_true]
        by_cases hc : count + 1 = n
        · simp only [hc, if_true]
          have : passCount env (m :: rest) ≥ 1 := by
            simp [passCount, List.countP_cons, hm]
          omega
        · simp only [hc, if_false]
          rw [ih (count + 1) _ (by omega)]
          have : passCount env (m :: rest) = passCount env rest + 1 := by
            simp [passCount, List.countP_cons, hm]
          omega
      · have hm : memberVerifies env m = false := by simp [memberVerifies, hp, hv]
        simp only [hp]
        rw [if_neg hv, ih count _ h]
        simp [passCount, List.countP_cons, hm]

/-- Loop characterisation, failure side: when fewer members pass than
needed to reach the quorum, the loop never breaks early, visits every
member, and accumulates every failure message. -/
theorem verifyMembersLoop_errs (env : JWSEnv) (n : Nat) :
    ∀ (order : List StakeholderListElement) (count : Nat) (errs : String),
      count + passCount env order < n →
      verifyMembersLoop env n order count errs =
        (count + passCount env order, errs ++ errsOf env order) := by
  intro order
  induction order with
  | nil =>
    intro count errs _
    simp [verifyMembersLoop, passCount, errsOf]
  | cons m rest ih =>
    intro count errs h
    have hcons : passCount env (m :: rest) =
        (if memberVerifies env m then 1 else 0) + passCount env rest := by
      simp only [passCount, List.countP_cons]
      cases hmv : memberVerifies env m <;> simp [hmv, Nat.add_comm]
    simp only [verifyMembersLoop]
    cases hp : parseJWK m.publicKey.jwk with
    | none =>
      have hm : memberVerifies env m = false := by simp [memberVerifies, hp]
      rw [ih count _ (by rw [hcons] at h; simp [hm] at h; omega)]
      simp [hcons, hm, errsOf, memberErrMsg, hp, String.append_assoc]
    | some key =>
      by_cases hv : env.verifyMulti key = true
      · have hm : memberVerifies env m = true := by simp [memberVerifies, hp, hv]
        have hlt : count + 1 + passCount env rest < n := by rw [hcons] at h; simp [hm] at h; omega
        have hne : ¬ (count + 1 = n) := by omega
        simp only [hp, hv, if_true, hne, if_false]
        rw [ih (count + 1) _ hlt]
        simp [hcons, hm, errsOf, memberErrMsg, hp, hv]
        omega
      · have hm : memberVerifies env m = false := by simp [memberVerifies, hp, hv]
        simp only [hp]
        rw [if_neg hv, ih count _ (by rw [hcons] at h; simp [hm] at h; omega)]
        simp [hcons, hm, errsOf, memberErrMsg, hp, hv, String.append_assoc]

/-- Concatenating member lists concatenates their failure messages. -/
theorem errsOf_append (env : JWSEnv) (l1 l2 : List StakeholderListElement) :
    errsOf env (l1 ++ l2) = errsOf env l1 ++ errsOf env l2 := by
  induction l1 with
  | nil =>
    have : ("" : String) ++ errsOf env l2 = errsOf env l2 := by
      apply String.ext; simp [String.data_append]
    simp [errsOf, this]
  | cons m rest ih => simp [errsOf, ih, String.append_assoc]

/-- Variant of `strContains_of_parts` with an empty head. -/
theorem strContains_of_parts2 (sub post : String) :
    strContains (sub ++ post) sub = true := by
  have h := strContains_of_parts "" sub post
  have he : ("" : String) ++ sub ++ post = sub ++ post := by
    apply String.ext; simp [String.data_append]
  rwa [he] at h

/-- Appending the empty string on the left is the identity. -/
theorem string_nil_append (s : String) : ("" : String) ++ s = s := by
  apply String.ext; simp [String.data_append]

/-- The header of the quorum-failure message, split at the spec's phrase. -/
theorem insufficient_header_split :
    ("insufficient stakeholder endorsement of consortium config file. errors are: [" : String) =
      "insufficient stakeholder endorsement" ++
        " of consortium config file. errors are: [" := by
  decide

/-- C1: for every consortium file, `GetConsortium` succeeds if and only if
at least `effectiveN` of the members' declared keys produce valid
signatures on the consortium envelope (counted per member entry and
independently of the random iteration order), where `effectiveN` equals
`numQueries` when `0 < numQueries ≤ len(members)` and `len(members)`
otherwise; with `numQueries = 0` and no members the check succeeds
vacuously. -/
theorem getConsortium_quorum_iff
    (inner : String → String → Except String ConsortiumFileData)
    (url domain : String) (cfd : ConsortiumFileData) (c : Consortium)
    (order : List StakeholderListElement)
    (hinner : inner url domain = .ok cfd)
    (hconf : cfd.config = some c)
    (hperm : order.Perm c.members) :
    (ConfigService.GetConsortium inner url domain order = .ok cfd ↔
      effectiveN c ≤ passCount cfd.jws c.members) ∧
    effectiveN c =
      (if 0 < c.policy.numQueries ∧ c.policy.numQueries ≤ c.members.length
        then c.policy.numQueries else c.members.length) ∧
    (c.policy.numQueries = 0 → c.members = [] →
      ConfigService.GetConsortium inner url domain order = .ok cfd) := by
  have hmain : ConfigService.GetConsortium inner url domain order = .ok cfd ↔
      effectiveN c ≤ passCount cfd.jws c.members := by
    simp only [ConfigService.GetConsortium, hinner, hconf]
    simp only [getConsortiumChecked]
    by_cases hn : effectiveN c = 0
    · simp [hn]
    · have hpos : 0 < effectiveN c := Nat.pos_of_ne_zero hn
      rw [verifyMembersLoop_count cfd.jws (effectiveN c) order 0 "" hpos,
        passCount_perm cfd.jws hperm]
      by_cases hlt : passCount cfd.jws c.members < effectiveN c
      · rw [if_pos (by omega)]
        constructor
        · intro h; exact absurd h (by simp)
        · intro h; omega
      · rw [if_neg (by omega)]
        simp; omega
  refine ⟨hmain, ?_, ?_⟩
  · simp only [effectiveN]
    split_ifs <;> omega
  · intro h0 hnil
    exact hmain.mpr (by simp [effectiveN, hnil, h0])

/-- Fixture for the C1 witness: one member whose key signs the envelope,
quorum 1. -/
def c1Member : StakeholderListElement :=
  ⟨"stakeholder.w", "did:example:w", ⟨"kidw", .wellFormed "KW"⟩⟩

/-- Fixture consortium for the C1 witness. -/
def c1Consortium : Consortium := ⟨"cons.w", ⟨1⟩, [c1Member], ""⟩

/-- Fixture file data for the C1 witness. -/
def c1Cfd : ConsortiumFileData := ⟨some c1Consortium, ⟨["KW"]⟩⟩

/-- Witness for C1 at a concrete consortium. -/
theorem getConsortium_quorum_iff_witness :
    ConfigService.GetConsortium (fun _ _ => .ok c1Cfd) "u" "d" c1Consortium.members
      = .ok c1Cfd ∧
    effectiveN c1Consortium ≤ passCount c1Cfd.jws c1Consortium.members ∧
    effectiveN c1Consortium =
      (if 0 < c1Consortium.policy.numQueries ∧
          c1Consortium.policy.numQueries ≤ c1Consortium.members.length
        then c1Consortium.policy.numQueries else c1Consortium.members.length) := by
  have h := getConsortium_quorum_iff (fun _ _ => .ok c1Cfd) "u" "d" c1Cfd c1Consortium
    c1Consortium.members rfl rfl (List.Perm.refl _)
  exact ⟨h.1.mpr (by decide), by decide, h.2.1⟩

/-- C5: when fewer members pass than the quorum requires, `GetConsortium`
visits every candidate key without aborting (a malformed JWK is recorded
and the loop continues), and returns the `insufficient stakeholder
endorsement` error enumerating, tagged with the member's domain, every
key that failed to parse or to verify. -/
theorem getConsortium_failure_enumerates
    (inner : String → String → Except String ConsortiumFileData)
    (url domain : String) (cfd : ConsortiumFileData) (c : Consortium)
    (order : List StakeholderListElement)
    (hinner : inner url domain = .ok cfd)
    (hconf : cfd.config = some c)
    (hperm : order.Perm c.members)
    (hfail : passCount cfd.jws c.members < effectiveN c) :
    ConfigService.GetConsortium inner url domain order =
      .error ("insufficient stakeholder endorsement of consortium config file. errors are: ["
        ++ errsOf cfd.jws order ++ "]") ∧
    strContains
      ("insufficient stakeholder endorsement of consortium config file. errors are: ["
        ++ errsOf cfd.jws order ++ "]")
      "insufficient stakeholder endorsement" = true ∧
    (∀ m ∈ order, parseJWK m.publicKey.jwk = none →
      strContains
        ("insufficient stakeholder endorsement of consortium config file. errors are: ["
          ++ errsOf cfd.jws order ++ "]")
        ("bad key for stakeholder: " ++ m.domain) = true) ∧
    (∀ m ∈ order, ∀ k, parseJWK m.publicKey.jwk = some k → cfd.jws.verifyMulti k = false →
      strContains
        ("insufficient stakeholder endorsement of consortium config file. errors are: ["
          ++ errsOf cfd.jws order ++ "]")
        ("key fails to verify for stakeholder: " ++ m.domain) = true) := by
  have hfo : 0 + passCount cfd.jws order < effectiveN c := by
    rw [passCount_perm cfd.jws hperm]; omega
  refine ⟨?_, ?_, ?_, ?_⟩
  · simp only [ConfigService.GetConsortium, hinner, hconf, getConsortiumChecked]
    rw [verifyMembersLoop_errs cfd.jws (effectiveN c) order 0 "" hfo]
    rw [if_pos (by rw [passCount_perm cfd.jws hperm] at hfo ⊢; omega)]
    rw [string_nil_append]
  · rw [insufficient_header_split, String.append_assoc, String.append_assoc]
    exact strContains_of_parts2 _ _
  · intro m hm hpnone
    obtain ⟨l1, l2, rfl⟩ := List.append_of_mem hm
    have hmsg : memberErrMsg cfd.jws m =
        ("bad key for stakeholder: " ++ m.domain) ++ ", " := by
      simp [memberErrMsg, hpnone, String.append_assoc]
    have hsplit :
        ("insufficient stakeholder endorsement of consortium config file. errors are: ["
            ++ errsOf cfd.jws (l1 ++ m :: l2) ++ "]") =
          ("insufficient stakeholder endorsement of consortium config file. errors are: ["
              ++ errsOf cfd.jws l1)
            ++ ("bad key for stakeholder: " ++ m.domain)
            ++ (", " ++ errsOf cfd.jws l2 ++ "]") := by
      have : errsOf cfd.jws (l1 ++ m :: l2) =
          errsOf cfd.jws l1 ++ (memberErrMsg cfd.jws m ++ errsOf cfd.jws l2) := by
        rw [errsOf_append]; rfl
      rw [this, hmsg]
      apply String.ext; simp [String.data_append]
    rw [hsplit]
    exact strContains_of_parts _ _ _
  · intro m hm k hpk hvk
    obtain ⟨l1, l2, rfl⟩ := List.append_of_mem hm
    have hmsg : memberErrMsg cfd.jws m =
        ("key fails to verify for stakeholder: " ++ m.domain) ++ ", " := by
      simp [memberErrMsg, hpk, hvk, String.append_assoc]
    have hsplit :
        ("insufficient stakeholder endorsement of consortium config file. errors are: ["
            ++ errsOf cfd.jws (l1 ++ m :: l2) ++ "]") =
          ("insufficient stakeholder endorsement of consortium config file. errors are: ["
              ++ errsOf cfd.jws l1)
            ++ ("key fails to verify for stakeholder: " ++ m.domain)
            ++ (", " ++ errsOf cfd.jws l2 ++ "]") := by
      have : errsOf cfd.jws (l1 ++ m :: l2) =
          errsOf cfd.jws l1 ++ (memberErrMsg cfd.jws m ++ errsOf cfd.jws l2) := by
        rw [errsOf_append]; rfl
      rw [this, hmsg]
      apply String.ext; simp [String.data_append]
    rw [hsplit]
    exact strContains_of_parts _ _ _

/-- Fixture for the C5 witness: one malformed key, one key that fails to
verify, quorum 1. -/
def c5MemberBad : StakeholderListElement :=
  ⟨"bad.example", "did:example:bad", ⟨"kidb", .malformed "junk"⟩⟩

/-- Fixture member whose key parses but does not sign the envelope. -/
def c5MemberNoSig : StakeholderListElement :=
  ⟨"nosig.example", "did:example:nosig", ⟨"kidn", .wellFormed "KN"⟩⟩

/-- Fixture consortium for the C5 witness. -/
def c5Consortium : Consortium := ⟨"cons.f", ⟨1⟩, [c5MemberBad, c5MemberNoSig], ""⟩

/-- Fixture file data for the C5 witness: the envelope is signed by an
unrelated key. -/
def c5Cfd : ConsortiumFileData := ⟨some c5Consortium, ⟨["OTHER"]⟩⟩

/-- Witness for C5 at a concrete consortium with both failure kinds. -/
theorem getConsortium_failure_enumerates_witness :
    ConfigService.GetConsortium (fun _ _ => .ok c5Cfd) "u" "d" c5Consortium.members =
      .error ("insufficient stakeholder endorsement of consortium config file. errors are: ["
        ++ errsOf c5Cfd.jws c5Consortium.members ++ "]") ∧
    strContains
      ("insufficient stakeholder endorsement of consortium config file. errors are: ["
        ++ errsOf c5Cfd.jws c5Consortium.members ++ "]")
      "insufficient stakeholder endorsement" = true ∧
    strContains
      ("insufficient stakeholder endorsement of consortium config file. errors are: ["
        ++ errsOf c5Cfd.jws c5Consortium.members ++ "]")
      ("bad key for stakeholder: " ++ c5MemberBad.domain) = true ∧
    strContains
      ("insufficient stakeholder endorsement of consortium config file. errors are: ["
        ++ errsOf c5Cfd.jws c5Consortium.members ++ "]")
      ("key fails to verify for stakeholder: " ++ c5MemberNoSig.domain) = true := by
  have h := getConsortium_failure_enumerates (fun _ _ => .ok c5Cfd) "u" "d" c5Cfd
    c5Consortium c5Consortium.members rfl rfl (List.Perm.refl _) (by decide)
  exact ⟨h.1, h.2.1,
    h.2.2.1 c5MemberBad (by decide) (by decide),
    h.2.2.2 c5MemberNoSig (by decide) "KN" (by decide) (by decide)⟩

/-- C9: `ConfigService.GetStakeholder` is a pure pass-through: for every
wrapped config service and every `(url, domain)` it returns exactly the
wrapped fetcher's result, performing no signature or quorum verification. -/
theorem getStakeholder_passthrough :
    ∀ (inner : String → String → Except String StakeholderFileData) (url domain : String),
      ConfigService.GetStakeholder inner url domain = inner url domain :=
  fun _ _ _ => rfl

/-! ### C3: duplicate member keys

The source loop of `ConfigService.GetConsortium` iterates the member
entries and increments `verifiedCount` once per entry; it performs no
deduplication of JWK bytes, so two members carrying the identical JWK
both count toward the quorum. -/

/-- Fixture: the JWK bytes shared by two members. -/
def dupKey : JWKBytes := .wellFormed "KD"

/-- Fixture: first member carrying the duplicated key. -/
def dupMember1 : StakeholderListElement :=
  ⟨"stakeholder.one", "did:example:one", ⟨"kid1", dupKey⟩⟩

/-- Fixture: second member carrying byte-identical JWK bytes. -/
def dupMember2 : StakeholderListElement :=
  ⟨"stakeholder.two", "did:example:two", ⟨"kid2", dupKey⟩⟩

/-- Fixture consortium whose quorum of 2 can only be met by counting the
same JWK twice. -/
def dupConsortium : Consortium :=
  ⟨"cons.dup", ⟨2⟩, [dupMember1, dupMember2], ""⟩

/-- Fixture file data: the envelope is signed under the shared key only. -/
def dupCfd : ConsortiumFileData := ⟨some dupConsortium, ⟨["KD"]⟩⟩

/-- Counterexample to C3: a consortium of two members with byte-identical
JWKs, quorum 2, and an envelope signed under that single key.  Only one
distinct key verifies, yet `GetConsortium` succeeds — under both possible
iteration orders of the two members — contradicting the claim that such a
consortium fails verification. -/
theorem getConsortium_dupkey_counterexample :
    dupMember1.publicKey.jwk = dupMember2.publicKey.jwk ∧
    effectiveN dupConsortium = 2 ∧
    ((dupConsortium.members.map (fun m => m.publicKey.jwk)).dedup.length = 1) ∧
    ConfigService.GetConsortium (fun _ _ => .ok dupCfd) "u" "d"
      [dupMember1, dupMember2] = .ok dupCfd ∧
    ConfigService.GetConsortium (fun _ _ => .ok dupCfd) "u" "d"
      [dupMember2, dupMember1] = .ok dupCfd := by
  exact ⟨rfl, by decide, by decide, rfl, rfl⟩

/-- C3 as amended: `GetConsortium` counts a valid signature once per
member entry without deduplicating JWK bytes, so a consortium of two
members carrying identical JWK bytes, with quorum 2 and an envelope
validly signed under that one key, passes verification. -/
theorem getConsortium_dupkey_amended
    (m1 m2 : StakeholderListElement) (cfd : ConsortiumFileData) (c : Consortium)
    (hmem : c.members = [m1, m2])
    (hjwk : m1.publicKey.jwk = m2.publicKey.jwk)
    (hver : memberVerifies cfd.jws m1 = true)
    (hnq : c.policy.numQueries = 2) :
    getConsortiumChecked cfd c c.members = .ok cfd := by
  rcases hk : parseJWK m1.publicKey.jwk with _ | k
  · simp [memberVerifies, hk] at hver
  · have hv : cfd.jws.verifyMulti k = true := by
      simpa [memberVerifies, hk] using hver
    have hk2 : parseJWK m2.publicKey.jwk = some k := by rw [← hjwk, hk]
    simp [getConsortiumChecked, effectiveN, hmem, hnq, verifyMembersLoop, hk, hk2, hv]

/-- Witness for the amended C3 at the duplicate-key fixture. -/
theorem getConsortium_dupkey_amended_witness :
    getConsortiumChecked dupCfd dupConsortium dupConsortium.members = .ok dupCfd :=
  getConsortium_dupkey_amended dupMember1 dupMember2 dupCfd dupConsortium
    rfl rfl (by decide) rfl

/-! ### DID documents and canonicalization

`canonicalizeDoc` and the resolver (`vdri.go`) are not among the source
files; they are modelled from the spec (§4.8, §4.9).  A parsed DID
document is a structure (the Go function takes a parsed `*did.Doc`, not
raw bytes); JSON object key order is erased by parsing and the canonical
serialization emits keys in a fixed sorted order. -/

/-- A public-key entry of a DID document. -/
structure PublicKeyEntry where
  id : String
  type : String
  controller : String
  value : String
deriving DecidableEq, Repr

/-- An `authentication[]` entry: either an inline reference (a bare id
string) or an embedded public key. -/
inductive AuthEntry where
  | ref (id : String)
  | embedded (k : PublicKeyEntry)
deriving DecidableEq, Repr

/-- A `service[]` entry; `properties` carries the extra JSON members of
the entry in parse order. -/
structure ServiceEntry where
  id : String
  type : String
  serviceEndpoint : String
  properties : List (String × String)
deriving DecidableEq, Repr

/-- A parsed DID document.  `created`, `updated` and `proof` are carried
but excluded from the canonical form. -/
structure DIDDoc where
  context : List String
  id : String
  publicKey : List PublicKeyEntry
  authentication : List AuthEntry
  service : List ServiceEntry
  created : Option String
  updated : Option String
  proof : List String
deriving DecidableEq, Repr

/-- Sort a list by a string key, using insertion sort. -/
def sortByKey {α : Type} (key : α → String) (l : List α) : List α :=
  l.insertionSort (fun a b => key a ≤ key b)

/-- The sort key of an `authentication[]` entry: embedded keys sort by
`id`, inline references sort lexicographically on the reference itself. -/
def authKey : AuthEntry → String
  | .ref i => i
  | .embedded k => k.id

/-- JSON string quoting (canonical documents contain no characters that
require escaping). -/
def quote (s : String) : String := "\"" ++ s ++ "\""

/-- Serialize extra service properties, assumed already key-sorted. -/
def serializeProps (ps : List (String × String)) : String :=
  String.intercalate "," (ps.map (fun kv => quote kv.1 ++ ":" ++ quote kv.2))

/-- Serialize one service entry with sorted keys. -/
def serializeService (s : ServiceEntry) : String :=
  "\x7b" ++ quote "id" ++ ":" ++ quote s.id ++ ","
    ++ quote "serviceEndpoint" ++ ":" ++ quote s.serviceEndpoint ++ ","
    ++ quote "type" ++ ":" ++ quote s.type
    ++ (if s.properties.isEmpty then "" else "," ++ serializeProps s.properties)
    ++ "\x7d"

/-- Serialize one public-key entry with sorted keys. -/
def serializePublicKey (k : PublicKeyEntry) : String :=
  "\x7b" ++ quote "controller" ++ ":" ++ quote k.controller ++ ","
    ++ quote "id" ++ ":" ++ quote k.id ++ ","
    ++ quote "type" ++ ":" ++ quote k.type ++ ","
    ++ quote "value" ++ ":" ++ quote k.value ++ "\x7d"

/-- Serialize one authentication entry. -/
def serializeAuth : AuthEntry → String
  | .ref i => quote i
  | .embedded k => serializePublicKey k

/-- Canonicalize a service entry: sort its extra properties by key. -/
def canonService (s : ServiceEntry) : ServiceEntry :=
  { s with properties := sortByKey Prod.fst s.properties }

/-- Modelled from the spec: `canonicalizeDoc` (absent `vdri.go`), per
§4.9 — a deterministic byte form with sorted object keys and no
whitespace, `service[]` sorted by `id`, `publicKey[]` and
`authentication[]` sorted by `id` (inline references lexicographically),
and `created`/`updated`/`proof` excluded. -/
def canonicalizeDoc (d : DIDDoc) : String :=
  "\x7b" ++ quote "@context" ++ ":["
    ++ String.intercalate "," (d.context.map quote) ++ "],"
    ++ quote "authentication" ++ ":["
    ++ String.intercalate "," ((sortByKey authKey d.authentication).map serializeAuth) ++ "],"
    ++ quote "id" ++ ":" ++ quote d.id ++ ","
    ++ quote "publicKey" ++ ":["
    ++ String.intercalate ","
      ((sortByKey (fun k => k.id) d.publicKey).map serializePublicKey) ++ "],"
    ++ quote "service" ++ ":["
    ++ String.intercalate ","
      ((sortByKey (fun s => s.id) (d.service.map canonService)).map serializeService)
    ++ "]" ++ "\x7d"

theorem sortByKey_perm {α : Type} (key : α → String) (l : List α) :
    (sortByKey key l).Perm l :=
  List.perm_insertionSort _ l

theorem sortByKey_sorted {α : Type} (key : α → String) (l : List α) :
    List.Sorted (fun a b => key a ≤ key b) (sortByKey key l) := by
  letI : IsTotal α (fun a b => key a ≤ key b) := ⟨fun a b => le_total (key a) (key b)⟩
  letI : IsTrans α (fun a b => key a ≤ key b) := ⟨fun a b c h1 h2 => le_trans h1 h2⟩
  exact List.sorted_insertionSort _ l

theorem sortByKey_sorted_strict {α : Type} (key : α → String) (l : List α)
    (hnd : (l.map key).Nodup) :
    List.Sorted (fun a b => key a < key b) (sortByKey key l) := by
  have hs := sortByKey_sorted key l
  have hnd2 : ((sortByKey key l).map key).Nodup :=
    (((sortByKey_perm key l).map key).nodup_iff).mpr hnd
  rw [List.Nodup, List.pairwise_map] at hnd2
  exact (hs.and hnd2).imp (fun h => lt_of_le_of_ne h.1 h.2)

/-- Sorting by key is invariant under permutation when the keys are
distinct. -/
theorem sortByKey_eq_of_perm {α : Type} (key : α → String) {l1 l2 : List α}
    (hp : l1.Perm l2) (hnd : (l1.map key).Nodup) :
    sortByKey key l1 = sortByKey key l2 := by
  letI : IsAntisymm α (fun a b => key a < key b) :=
    ⟨fun a b h1 h2 => absurd (lt_trans h1 h2) (lt_irrefl _)⟩
  have hperm : (sortByKey key l1).Perm (sortByKey key l2) :=
    (sortByKey_perm key l1).trans (hp.trans (sortByKey_perm key l2).symm)
  have hnd1 : (l2.map key).Nodup := ((hp.map key).nodup_iff).mp hnd
  exact List.eq_of_perm_of_sorted hperm
    (sortByKey_sorted_strict key l1 hnd) (sortByKey_sorted_strict key l2 hnd1)

/-- Two service entries are equivalent when they agree on all fields and
their extra properties are a permutation of one another (JSON key
order). -/
def ServiceEquiv (s t : ServiceEntry) : Prop :=
  s.id = t.id ∧ s.type = t.type ∧ s.serviceEndpoint = t.serviceEndpoint ∧
    s.properties.Perm t.properties

/-- Two DID documents that differ only in JSON object key order (the
extra properties of each service entry), in the order of `service[]`
entries, or in the order of `publicKey[]`/`authentication[]` entries. -/
def DocEquiv (d1 d2 : DIDDoc) : Prop :=
  d1.context = d2.context ∧ d1.id = d2.id ∧
  d1.publicKey.Perm d2.publicKey ∧
  d1.authentication.Perm d2.authentication ∧
  (∃ mid, List.Forall₂ ServiceEquiv d1.service mid ∧ mid.Perm d2.service) ∧
  d1.created = d2.created ∧ d1.updated = d2.updated ∧ d1.proof = d2.proof

theorem canonService_eq {s t : ServiceEntry} (h : ServiceEquiv s t)
    (hnd : (s.properties.map Prod.fst).Nodup) :
    canonService s = canonService t := by
  obtain ⟨hid, hty, hep, hprops⟩ := h
  have hsorted : sortByKey Prod.fst s.properties = sortByKey Prod.fst t.properties :=
    sortByKey_eq_of_perm Prod.fst hprops hnd
  cases s; cases t
  simp_all [canonService]

theorem canonService_map_eq {l1 l2 : List ServiceEntry}
    (h : List.Forall₂ ServiceEquiv l1 l2)
    (hnd : ∀ s ∈ l1, (s.properties.map Prod.fst).Nodup) :
    l1.map canonService = l2.map canonService := by
  induction h with
  | nil => rfl
  | @cons a b la lb hab _ ih =>
    simp only [List.map_cons]
    rw [canonService_eq hab (hnd a (by simp)),
      ih (fun s hs => hnd s (by simp [hs]))]

theorem canonService_id_map (l : List ServiceEntry) :
    (l.map canonService).map (fun s => s.id) = l.map (fun s => s.id) := by
  rw [List.map_map]; rfl

/-- C7: canonicalization is independent of JSON object key order,
`service[]` order, and `publicKey[]`/`authentication[]` order — for any
two documents that differ only in those orders (with the usual DID
well-formedness: distinct entry ids and distinct property keys), the
canonical byte strings are identical. -/
theorem canonicalizeDoc_order_independent (d1 d2 : DIDDoc)
    (heq : DocEquiv d1 d2)
    (hpk : (d1.publicKey.map (fun k => k.id)).Nodup)
    (hauth : (d1.authentication.map authKey).Nodup)
    (hsvc : (d1.service.map (fun s => s.id)).Nodup)
    (hprops : ∀ s ∈ d1.service, (s.properties.map Prod.fst).Nodup) :
    canonicalizeDoc d1 = canonicalizeDoc d2 := by
  obtain ⟨hctx, hid, hpkp, hauthp, ⟨mid, hf2, hmidp⟩, _, _, _⟩ := heq
  have hpke : sortByKey (fun k => k.id) d1.publicKey =
      sortByKey (fun k => k.id) d2.publicKey :=
    sortByKey_eq_of_perm _ hpkp hpk
  have hauthe : sortByKey authKey d1.authentication =
      sortByKey authKey d2.authentication :=
    sortByKey_eq_of_perm _ hauthp hauth
  have hsvc1 : d1.service.map canonService = mid.map canonService :=
    canonService_map_eq hf2 hprops
  have hsvcperm : (d1.service.map canonService).Perm (d2.service.map canonService) := by
    rw [hsvc1]; exact hmidp.map canonService
  have hsvce : sortByKey (fun s => s.id) (d1.service.map canonService) =
      sortByKey (fun s => s.id) (d2.service.map canonService) := by
    apply sortByKey_eq_of_perm _ hsvcperm
    rw [canonService_id_map]
    exact hsvc
  simp only [canonicalizeDoc, hctx, hid, hpke, hauthe, hsvce]

/-- Fixture service entries for the C7 witness. -/
def c7SvcA : ServiceEntry :=
  ⟨"did:example:1#inbox", "SocialWebInboxService", "https://social.example.com/inbox",
    [("description", "My public social inbox"), ("spamCost", "0.50")]⟩

/-- The same service entry with its extra properties permuted. -/
def c7SvcA2 : ServiceEntry :=
  ⟨"did:example:1#inbox", "SocialWebInboxService", "https://social.example.com/inbox",
    [("spamCost", "0.50"), ("description", "My public social inbox")]⟩

/-- A second fixture service entry. -/
def c7SvcB : ServiceEntry :=
  ⟨"did:example:1#oidc", "OpenIdConnectVersion1.0Service", "https://openid.example.com/", []⟩

/-- Fixture public-key entries. -/
def c7Pk1 : PublicKeyEntry :=
  ⟨"did:example:1#keys-1", "Ed25519VerificationKey2018", "did:example:1", "H3C2"⟩

/-- Second fixture public-key entry. -/
def c7Pk2 : PublicKeyEntry :=
  ⟨"did:example:1#keys-2", "JwsVerificationKey2020", "did:example:1", "60uL"⟩

/-- First fixture document for the C7 witness. -/
def c7Doc1 : DIDDoc :=
  ⟨["https://w3id.org/did/v1"], "did:example:1", [c7Pk1, c7Pk2],
    [.embedded c7Pk2, .ref "did:example:1#keys-1"], [c7SvcA, c7SvcB], none, none, []⟩

/-- The same document with `service[]`, `publicKey[]`, `authentication[]`
and the extra service properties reordered. -/
def c7Doc2 : DIDDoc :=
  ⟨["https://w3id.org/did/v1"], "did:example:1", [c7Pk2, c7Pk1],
    [.ref "did:example:1#keys-1", .embedded c7Pk2], [c7SvcB, c7SvcA2], none, none, []⟩

/-- Witness for C7 at a concrete reordered pair of documents. -/
theorem canonicalizeDoc_order_independent_witness :
    canonicalizeDoc c7Doc1 = canonicalizeDoc c7Doc2 :=
  canonicalizeDoc_order_independent c7Doc1 c7Doc2
    ⟨rfl, rfl, by decide, by decide,
      ⟨[c7SvcA2, c7SvcB],
        List.Forall₂.cons (by constructor; rfl; constructor; rfl; constructor; rfl; decide)
          (List.Forall₂.cons (by constructor; rfl; constructor; rfl; constructor; rfl; decide)
            List.Forall₂.nil),
        by decide⟩,
      rfl, rfl, rfl⟩
    (by decide) (by decide) (by decide) (by decide)

/-! ### Stakeholder verification (C4)

`verifyStakeholder` lives in the absent `vdri.go`; it is modelled from
the spec (§4.7 step 3) with one deliberate deviation, forced by the
repository's own test `Test_verifyStakeholder`: the test's second case
(consortium signed by an unrelated key, stakeholder file unsigned)
expects the error `does not sign consortium`, which is only reachable if
the consortium-signature check runs *before* the self-signature check;
the model therefore performs the consortium check first, contrary to the
spec's step order. -/

/-- Whether the stakeholder file carries a valid self-signature under the
given key (an absent envelope verifies nothing). -/
def stakeholderSelfSigned (sfd : StakeholderFileData) (key : String) : Bool :=
  match sfd.jws with
  | some e => e.verifyMulti key
  | none => false

/-- Modelled from the spec: `verifyStakeholder` (absent `vdri.go`) —
look up the member entry matching the stakeholder file's domain, parse
its declared key, check the key signs the consortium envelope, check the
stakeholder file is self-signed by the key, then resolve the stakeholder
DID and run the DID-configuration check (both abstracted to their
results). -/
def verifyStakeholder (cfd : ConsortiumFileData) (c : Consortium)
    (sfd : StakeholderFileData) (resolveDID : Except String DIDDoc)
    (didConfigOK : DIDDoc → Bool) : Except String Unit :=
  match c.members.find? (fun m => m.domain == sfd.config.domain) with
  | none => .error ("stakeholder " ++ sfd.config.domain ++ " "
      ++ "is not a member of the consortium")
  | some m =>
    match parseJWK m.publicKey.jwk with
    | none => .error ("bad key for stakeholder: " ++ m.domain)
    | some key =>
      if cfd.jws.verifyMulti key then
        if stakeholderSelfSigned sfd key then
          match resolveDID with
          | .error e => .error ("can't resolve stakeholder DID: " ++ e)
          | .ok doc =>
            if didConfigOK doc then .ok ()
            else .error ("did configuration invalid for stakeholder "
              ++ sfd.config.domain)
        else
          .error ("stakeholder " ++ sfd.config.domain ++ " " ++ "does not sign itself")
      else
        .error ("stakeholder " ++ sfd.config.domain ++ " " ++ "does not sign consortium")

/-- Fixture member for the C4 counterexample: declared key `K1`. -/
def c4Member : StakeholderListElement :=
  ⟨"stake.example", "did:example:stake", ⟨"kid4", .wellFormed "K1"⟩⟩

/-- Fixture consortium for the C4 counterexample. -/
def c4Consortium : Consortium := ⟨"cons.four", ⟨1⟩, [c4Member], ""⟩

/-- Fixture consortium file data whose envelope is signed by an unrelated
key `K2`, not by the member's `K1`. -/
def c4Cfd : ConsortiumFileData := ⟨some c4Consortium, ⟨["K2"]⟩⟩

/-- Fixture stakeholder file that is not self-signed (no envelope). -/
def c4Sfd : StakeholderFileData :=
  ⟨⟨"stake.example", "did:example:stake", ⟨⟩, ["https://ep.example/"], ""⟩, none⟩

/-- Counterexample to C4: a member whose stakeholder file is *not*
self-signed, on which `verifyStakeholder` nevertheless fails with the
`does not sign consortium` message — not with one containing
`does not sign itself` — because the consortium-signature check runs
first (as the repository's `Test_verifyStakeholder` requires). -/
theorem verifyStakeholder_order_counterexample :
    stakeholderSelfSigned c4Sfd "K1" = false ∧
    verifyStakeholder c4Cfd c4Consortium c4Sfd (.error "unused") (fun _ => true) =
      .error ("stakeholder " ++ "stake.example" ++ " " ++ "does not sign consortium") ∧
    strContains ("stakeholder " ++ "stake.example" ++ " " ++ "does not sign consortium")
      "does not sign itself" = false := by
  exact ⟨rfl, rfl, by decide⟩

/-- C4 as amended: when the member's declared key does sign the
consortium envelope but the stakeholder file is not self-signed by it,
`verifyStakeholder` fails with an error containing `does not sign
itself`; the self-signing check runs *after* the consortium-signature
check, not before it. -/
theorem verifyStakeholder_self_sign_amended
    (cfd : ConsortiumFileData) (c : Consortium) (sfd : StakeholderFileData)
    (resolveDID : Except String DIDDoc) (didConfigOK : DIDDoc → Bool)
    (m : StakeholderListElement) (key : String)
    (hfind : c.members.find? (fun x => x.domain == sfd.config.domain) = some m)
    (hkey : parseJWK m.publicKey.jwk = some key)
    (hcons : cfd.jws.verifyMulti key = true)
    (hself : stakeholderSelfSigned sfd key = false) :
    verifyStakeholder cfd c sfd resolveDID didConfigOK =
      .error ("stakeholder " ++ sfd.config.domain ++ " " ++ "does not sign itself") ∧
    strContains ("stakeholder " ++ sfd.config.domain ++ " " ++ "does not sign itself")
      "does not sign itself" = true := by
  constructor
  · simp [verifyStakeholder, hfind, hkey, hcons, hself]
  · have hsplit :
        ("stakeholder " ++ sfd.config.domain ++ " " ++ "does not sign itself" : String) =
          ("stakeholder " ++ sfd.config.domain ++ " ") ++ "does not sign itself" ++ "" := by
      apply String.ext; simp [String.data_append]
    rw [hsplit]
    exact strContains_of_parts _ _ _

/-- Fixture stakeholder file data for the amended C4 witness: signed by
`K2` only, while the member declares `K1`. -/
def c4SfdWrongKey : StakeholderFileData :=
  ⟨⟨"stake.example", "did:example:stake", ⟨⟩, ["https://ep.example/"], ""⟩, some ⟨["K2"]⟩⟩

/-- Fixture consortium file data correctly signed by the member's `K1`. -/
def c4CfdSigned : ConsortiumFileData := ⟨some c4Consortium, ⟨["K1"]⟩⟩

/-- Witness for the amended C4 at a concrete consortium/stakeholder pair. -/
theorem verifyStakeholder_self_sign_amended_witness :
    verifyStakeholder c4CfdSigned c4Consortium c4SfdWrongKey (.error "unused")
        (fun _ => true) =
      .error ("stakeholder " ++ c4SfdWrongKey.config.domain ++ " "
        ++ "does not sign itself") ∧
    strContains ("stakeholder " ++ c4SfdWrongKey.config.domain ++ " "
        ++ "does not sign itself")
      "does not sign itself" = true :=
  verifyStakeholder_self_sign_amended c4CfdSigned c4Consortium c4SfdWrongKey
    (.error "unused") (fun _ => true) c4Member "K1" rfl rfl (by decide) (by decide)

/-! ### The resolver `Read` pipeline (C2, C8, C10)

The resolver itself (`vdri.go`) is absent from the sources; the pipeline
is modelled from the spec (§4.8): resolver-URL bypass, DID parsing,
per-domain validated-consortium cache, endpoint discovery, per-endpoint
reads, and canonical reconciliation.  HTTP collaborators are abstracted
to their results in `ReadEnv`. -/

/-- Split a character list at every occurrence of `c` (model of Go's
`strings.Split`). -/
def splitOnChar (c : Char) : List Char → List (List Char)
  | [] => [[]]
  | x :: xs =>
    let r := splitOnChar c xs
    if x = c then [] :: r
    else
      match r with
      | [] => [[x]]
      | y :: ys => (x :: y) :: ys

/-- Modelled from the spec: DID parsing in `Read` (absent `vdri.go`) —
the accepted shape is `did:<method>:<domain>:<unique-suffix>` (four
colon-separated segments); the domain is the third segment. -/
def parseDIDDomain (didID : String) : Option String :=
  let parts := splitOnChar ':' didID.data
  if parts.length = 4 then some (String.mk (parts.getD 2 [])) else none

/-- The abstract environment of one `Read`: configuration and the
results of the external collaborators. -/
structure ReadEnv where
  resolverURL : Option String
  perResolve : String → String → Except String DIDDoc
  getEndpoints : String → Except String (List Endpoint)
  validateOK : Bool

/-- Mutable state of the resolver: the validated-consortium cache
(`v.validatedConsortium`), a set of domains. -/
structure ResolverState where
  validatedConsortium : List String
deriving DecidableEq, Repr

/-- The observable outcome of one `Read`: its result, the resolver state
afterwards, and whether consortium validation was invoked. -/
structure ReadOutcome where
  result : Except String DIDDoc
  state : ResolverState
  validationCalled : Bool

/-- Read the DID document from every endpoint in order; the first
per-endpoint failure aborts the whole read. -/
def readEndpointDocs (resolve : String → Except String DIDDoc) :
    List Endpoint → Except String (List DIDDoc)
  | [] => .ok []
  | e :: rest =>
    match resolve e.url with
    | .error err => .error err
    | .ok d =>
      match readEndpointDocs resolve rest with
      | .error err => .error err
      | .ok ds => .ok (d :: ds)

/-- Modelled from the spec: reconciliation in `Read` (absent `vdri.go`) —
canonicalize every returned document; if all canonical forms are
byte-equal return the first parsed document, otherwise fail with the
`mismatch between resolved documents` error. -/
def reconcile : List DIDDoc → Except String DIDDoc
  | [] => .error "no documents"
  | d :: rest =>
    if rest.all (fun d2 => canonicalizeDoc d2 == canonicalizeDoc d) then .ok d
    else .error "mismatch between resolved documents"

/-- Discover the endpoints for a domain and read and reconcile the DID
document across all of them. -/
def resolveFromEndpoints (env : ReadEnv) (domain didID : String) :
    Except String DIDDoc :=
  match env.getEndpoints domain with
  | .error e => .error e
  | .ok [] => .error "list of endpoints is empty"
  | .ok (e :: es) =>
    match readEndpointDocs (fun u => env.perResolve u didID) (e :: es) with
    | .error err => .error err
    | .ok docs => reconcile docs

/-- Modelled from the spec: `VDRI.Read` (absent `vdri.go`) — with a fixed
resolver URL, bypass the consortium path entirely and forward the DID
string unvalidated; otherwise parse the DID, consult the
validated-consortium cache (validating on a miss and caching only
success), then discover endpoints and reconcile the per-endpoint reads. -/
def VDRI.Read (env : ReadEnv) (st : ResolverState) (didID : String) : ReadOutcome :=
  match env.resolverURL with
  | some url => ⟨env.perResolve url didID, st, false⟩
  | none =>
    match parseDIDDomain didID with
    | none => ⟨.error ("wrong did " ++ didID), st, false⟩
    | some domain =>
      if st.validatedConsortium.contains domain then
        ⟨resolveFromEndpoints env domain didID, st, false⟩
      else if env.validateOK then
        ⟨resolveFromEndpoints env domain didID, ⟨domain :: st.validatedConsortium⟩, true⟩
      else
        ⟨.error "consortium invalid", st, true⟩

/-- When every endpoint read succeeds, there are as many documents as
endpoints. -/
theorem readEndpointDocs_length (resolve : String → Except String DIDDoc) :
    ∀ (eps : List Endpoint) (docs : List DIDDoc),
      readEndpointDocs resolve eps = .ok docs → docs.length = eps.length := by
  intro eps
  induction eps with
  | nil => intro docs h; simp [readEndpointDocs] at h; simp [← h]
  | cons e es ih =>
    intro docs h
    simp only [readEndpointDocs] at h
    cases hr : resolve e.url with
    | error err => rw [hr] at h; exact absurd h (by simp)
    | ok d =>
      rw [hr] at h
      cases hds : readEndpointDocs resolve es with
      | error err => rw [hds] at h; exact absurd h (by simp)
      | ok ds =>
        rw [hds] at h
        have : docs = d :: ds := by
          simpa using h.symm
        subst this
        simp [ih ds hds]

/-- C2: on a read whose domain yields two or more endpoints, the
resolver canonicalizes every returned document; if all canonical forms
are byte-equal it returns the first parsed document, and otherwise it
fails with the `mismatch between resolved documents` error and never
returns any endpoint's answer. -/
theorem read_reconciles
    (env : ReadEnv) (st : ResolverState) (didID domain : String)
    (eps : List Endpoint) (d0 : DIDDoc) (drest : List DIDDoc)
    (hurl : env.resolverURL = none)
    (hparse : parseDIDDomain didID = some domain)
    (hcached : st.validatedConsortium.contains domain = true)
    (heps : env.getEndpoints domain = .ok eps)
    (hlen : 2 ≤ eps.length)
    (hdocs : readEndpointDocs (fun u => env.perResolve u didID) eps = .ok (d0 :: drest)) :
    1 ≤ drest.length ∧
    ((∀ d ∈ drest, canonicalizeDoc d = canonicalizeDoc d0) →
      (VDRI.Read env st didID).result = .ok d0) ∧
    ((∃ d ∈ drest, canonicalizeDoc d ≠ canonicalizeDoc d0) →
      (VDRI.Read env st didID).result = .error "mismatch between resolved documents" ∧
      strContains "mismatch between resolved documents" "mismatch between resolved documents"
        = true ∧
      ∀ d : DIDDoc, (VDRI.Read env st didID).result ≠ .ok d) := by
  have hlen2 : (d0 :: drest).length = eps.length :=
    readEndpointDocs_length _ eps _ hdocs
  obtain ⟨e, es, rfl⟩ : ∃ e es, eps = e :: es := by
    cases eps with
    | nil => simp at hlen
    | cons e es => exact ⟨e, es, rfl⟩
  have hres : (VDRI.Read env st didID).result = reconcile (d0 :: drest) := by
    simp only [VDRI.Read, hurl, hparse, hcached, if_true, resolveFromEndpoints, heps, hdocs]
  refine ⟨by simp only [List.length_cons] at hlen2 hlen; omega, ?_, ?_⟩
  · intro hall
    have halltrue : drest.all (fun d2 => canonicalizeDoc d2 == canonicalizeDoc d0) = true := by
      rw [List.all_eq_true]
      intro d hd
      simp only [beq_iff_eq]
      exact hall d hd
    rw [hres]
    simp only [reconcile, halltrue, if_true]
  · intro ⟨d, hd, hne⟩
    have hfalse : drest.all (fun d2 => canonicalizeDoc d2 == canonicalizeDoc d0) = false := by
      rw [Bool.eq_false_iff]
      intro hall
      rw [List.all_eq_true] at hall
      exact hne (by simpa using hall d hd)
    rw [hres]
    simp only [reconcile, hfalse]
    refine ⟨by simp, by decide, ?_⟩
    intro d2
    simp

/-- Fixture document for the C2 witness. -/
def c2Doc : DIDDoc :=
  ⟨["https://w3id.org/did/v1"], "did:trustbloc:testnet:123", [], [], [], none, none, []⟩

/-- Fixture read environment for the C2 witness: two endpoints returning
the same document. -/
def c2Env : ReadEnv :=
  ⟨none, fun _ _ => .ok c2Doc, fun _ => .ok [⟨"https://ep1/", "testnet"⟩, ⟨"https://ep2/", "testnet"⟩],
    true⟩

/-- Witness for C2: with two endpoints returning byte-identical canonical
documents, `Read` returns the first parsed document. -/
theorem read_reconciles_witness :
    (VDRI.Read c2Env ⟨["testnet"]⟩ "did:trustbloc:testnet:123").result = .ok c2Doc :=
  (read_reconciles c2Env ⟨["testnet"]⟩ "did:trustbloc:testnet:123" "testnet"
    [⟨"https://ep1/", "testnet"⟩, ⟨"https://ep2/", "testnet"⟩] c2Doc [c2Doc]
    rfl (by decide) (by decide) rfl (by decide) rfl).2.1
    (by intro d hd; simp at hd; rw [hd])

/-- C8: a domain present in the validated-consortium cache makes `Read`
skip consortium validation and leaves the cache unchanged; a failed
validation leaves the domain out of the cache (the next caller retries);
a successful validation inserts the domain, after which a subsequent
`Read` skips validation; and the cache only ever grows, so `Validated`
is terminal for the lifetime of the resolver. -/
theorem read_validation_cache
    (env : ReadEnv) (st : ResolverState) (didID domain : String)
    (hurl : env.resolverURL = none)
    (hparse : parseDIDDomain didID = some domain) :
    (st.validatedConsortium.contains domain = true →
      (VDRI.Read env st didID).validationCalled = false ∧
      (VDRI.Read env st didID).state = st) ∧
    (st.validatedConsortium.contains domain = false → env.validateOK = false →
      (VDRI.Read env st didID).validationCalled = true ∧
      (VDRI.Read env st didID).state = st ∧
      ((VDRI.Read env st didID).state).validatedConsortium.contains domain = false) ∧
    (st.validatedConsortium.contains domain = false → env.validateOK = true →
      (VDRI.Read env st didID).validationCalled = true ∧
      ((VDRI.Read env st didID).state).validatedConsortium.contains domain = true ∧
      (VDRI.Read env ((VDRI.Read env st didID).state) didID).validationCalled = false) ∧
    (∀ (env2 : ReadEnv) (st2 : ResolverState) (x d2 : String),
      st2.validatedConsortium.contains d2 = true →
      ((VDRI.Read env2 st2 x).state).validatedConsortium.contains d2 = true) := by
  refine ⟨?_, ?_, ?_, ?_⟩
  · intro hc
    replace hc : domain ∈ st.validatedConsortium := by simpa using hc
    simp [VDRI.Read, hurl, hparse, hc]
  · intro hc hv
    replace hc : ¬ domain ∈ st.validatedConsortium := by simpa using hc
    simp [VDRI.Read, hurl, hparse, hc, hv]
  · intro hc hv
    replace hc : ¬ domain ∈ st.validatedConsortium := by simpa using hc
    refine ⟨?_, ?_, ?_⟩
    · simp [VDRI.Read, hurl, hparse, hc, hv]
    · simp [VDRI.Read, hurl, hparse, hc, hv]
    · have hstate : (VDRI.Read env st didID).state =
          ⟨domain :: st.validatedConsortium⟩ := by
        simp [VDRI.Read, hurl, hparse, hc, hv]
      rw [hstate]
      simp [VDRI.Read, hurl, hparse]
  · intro env2 st2 x d2 hc
    replace hc : d2 ∈ st2.validatedConsortium := by simpa using hc
    cases hru : env2.resolverURL with
    | some u => simp [VDRI.Read, hru, hc]
    | none =>
      cases hp : parseDIDDomain x with
      | none => simp [VDRI.Read, hru, hp, hc]
      | some dom =>
        by_cases hcd : dom ∈ st2.validatedConsortium
        · simp [VDRI.Read, hru, hp, hcd, hc]
        · cases hv2 : env2.validateOK with
          | false => simp [VDRI.Read, hru, hp, hcd, hv2, hc]
          | true => simp [VDRI.Read, hru, hp, hcd, hv2, hc]

/-- Fixture environment for the C8 witness with successful validation. -/
def c8EnvOK : ReadEnv :=
  ⟨none, fun _ _ => .ok c2Doc, fun _ => .ok [⟨"https://ep1/", "testnet"⟩], true⟩

/-- Fixture environment for the C8 witness with failing validation. -/
def c8EnvFail : ReadEnv :=
  ⟨none, fun _ _ => .ok c2Doc, fun _ => .ok [⟨"https://ep1/", "testnet"⟩], false⟩

/-- Witness for C8 at concrete resolver states. -/
theorem read_validation_cache_witness :
    (VDRI.Read c8EnvOK ⟨["testnet"]⟩ "did:trustbloc:testnet:123").validationCalled = false ∧
    (VDRI.Read c8EnvFail ⟨[]⟩ "did:trustbloc:testnet:123").state = (⟨[]⟩ : ResolverState) ∧
    ((VDRI.Read c8EnvOK ⟨[]⟩ "did:trustbloc:testnet:123").state).validatedConsortium.contains
        "testnet" = true ∧
    (VDRI.Read c8EnvOK ((VDRI.Read c8EnvOK ⟨[]⟩ "did:trustbloc:testnet:123").state)
        "did:trustbloc:testnet:123").validationCalled = false := by
  have h1 := read_validation_cache c8EnvOK ⟨["testnet"]⟩ "did:trustbloc:testnet:123"
    "testnet" rfl (by decide)
  have h2 := read_validation_cache c8EnvFail ⟨[]⟩ "did:trustbloc:testnet:123"
    "testnet" rfl (by decide)
  have h3 := read_validation_cache c8EnvOK ⟨[]⟩ "did:trustbloc:testnet:123"
    "testnet" rfl (by decide)
  exact ⟨(h1.1 (by decide)).1, (h2.2.1 (by decide) rfl).2.1,
    (h3.2.2.1 (by decide) rfl).2.1, (h3.2.2.1 (by decide) rfl).2.2⟩

/-- C10: with a fixed resolver URL, `Read` forwards the DID string to the
single per-endpoint resolver without validating its shape, so the
non-DID string `did` resolves successfully whenever that resolver
succeeds; without a resolver URL the same input fails with the error
`wrong did did` (`wrong did` followed by the input value). -/
theorem read_resolverURL_bypass
    (env1 env2 : ReadEnv) (st : ResolverState) (url : String) (doc : DIDDoc)
    (hurl1 : env1.resolverURL = some url)
    (hres : env1.perResolve url "did" = .ok doc)
    (hurl2 : env2.resolverURL = none) :
    (VDRI.Read env1 st "did").result = .ok doc ∧
    parseDIDDomain "did" = none ∧
    (VDRI.Read env2 st "did").result = .error ("wrong did " ++ "did") ∧
    strContains ("wrong did " ++ "did") "wrong did" = true := by
  refine ⟨?_, by decide, ?_, by decide⟩
  · simp [VDRI.Read, hurl1, hres]
  · simp [VDRI.Read, hurl2, show parseDIDDomain "did" = none from by decide]

/-- Fixture environment for the C10 witness: resolver-URL mode. -/
def c10EnvURL : ReadEnv :=
  ⟨some "https://resolver.example/", fun _ _ => .ok c2Doc, fun _ => .ok [], true⟩

/-- Fixture environment for the C10 witness: consortium mode. -/
def c10EnvNoURL : ReadEnv :=
  ⟨none, fun _ _ => .ok c2Doc, fun _ => .ok [], true⟩

/-- Witness for C10 at concrete environments. -/
theorem read_resolverURL_bypass_witness :
    (VDRI.Read c10EnvURL ⟨[]⟩ "did").result = .ok c2Doc ∧
    parseDIDDomain "did" = none ∧
    (VDRI.Read c10EnvNoURL ⟨[]⟩ "did").result = .error ("wrong did " ++ "did") ∧
    strContains ("wrong did " ++ "did") "wrong did" = true :=
  read_resolverURL_bypass c10EnvURL c10EnvNoURL ⟨[]⟩ "https://resolver.example/"
    c2Doc rfl rfl rfl

/-! ### Endpoint discovery and selection (C6)

The static discovery, static selection and endpoint services are absent
from the sources.  Discovery is modelled from the spec (§4.4): fetch
each member's stakeholder file and flatten the `endpoints` lists; a fetch
failure is fatal.  The spec describes selection (§4.5) as the identity,
but the repository's own test `TestEndpointService_GetEndpoints` requires
`GetEndpoints` to return 2 endpoints for a consortium of two members each
listing two endpoints, and the selection service's constructor
`staticselection.NewService(configService)` takes the config service —
so selection is modelled as consulting the consortium policy and
returning `numQueries` of the discovered endpoints (clamped to the list
length when zero or too large), drawn in the random order `selOrder`. -/

/-- The endpoints contributed by one member's stakeholder file. -/
def memberEndpoints (sfd : StakeholderFileData) (m : StakeholderListElement) :
    List Endpoint :=
  sfd.config.endpoints.map (fun u => ⟨u, m.domain⟩)

/-- Modelled from the spec: static discovery (absent
`discovery/staticdiscovery`) — fetch each member's stakeholder file and
return the flattened concatenation of their endpoint lists; any fetch
failure is fatal and propagates with the `failed to fetch stakeholders`
tag. -/
def discoverMembers (fetch : String → Except String StakeholderFileData) :
    List StakeholderListElement → Except String (List Endpoint)
  | [] => .ok []
  | m :: rest =>
    match fetch m.domain with
    | .error e => .error ("failed to fetch stakeholders: " ++ e)
    | .ok sfd =>
      match discoverMembers fetch rest with
      | .error e => .error e
      | .ok eps => .ok (memberEndpoints sfd m ++ eps)

/-- The flattened concatenation of every member's endpoints, given the
stakeholder file each member's fetch returns. -/
def flattenEndpoints (sf : StakeholderListElement → StakeholderFileData) :
    List StakeholderListElement → List Endpoint
  | [] => []
  | m :: rest => memberEndpoints (sf m) m ++ flattenEndpoints sf rest

/-- Modelled from the repository's test and the selection constructor
signature (the spec's §4.5 "identity" contradicts both): selection
consults the consortium policy and returns `numQueries` endpoints
(clamped like the signature quorum), drawn in the order `selOrder`
chosen by `rand.Perm`. -/
def selectEndpoints (c : Consortium) (selOrder eps : List Endpoint) : List Endpoint :=
  let n := if c.policy.numQueries = 0 ∨ c.policy.numQueries > eps.length
    then eps.length else c.policy.numQueries
  selOrder.take n

/-- Modelled from the spec: the endpoint service (absent `endpoint/`) —
compose discovery and selection, propagating errors. -/
def EndpointService.GetEndpoints (fetch : String → Except String StakeholderFileData)
    (c : Consortium) (selOrder : List Endpoint) : Except String (List Endpoint) :=
  match discoverMembers fetch c.members with
  | .error e => .error e
  | .ok eps => .ok (selectEndpoints c selOrder eps)

/-- Fixture stakeholder files for C6: two members with two endpoints
each (mirroring `TestEndpointService_GetEndpoints`). -/
def c6Sfd1 : StakeholderFileData :=
  ⟨⟨"bar.baz", "did:example:bar", ⟨⟩,
    ["https://bar.baz/webapi/123456", "https://bar.baz/webapi/654321"], ""⟩, none⟩

/-- Second fixture stakeholder file for C6. -/
def c6Sfd2 : StakeholderFileData :=
  ⟨⟨"baz.qux", "did:example:baz", ⟨⟩,
    ["https://baz.qux/iyoubhlkn/", "https://baz.foo/ukjhjtfyw/"], ""⟩, none⟩

/-- Fixture members for C6. -/
def c6Member1 : StakeholderListElement :=
  ⟨"bar.baz", "did:example:bar", ⟨"k1", .wellFormed "KA"⟩⟩

/-- Second fixture member for C6. -/
def c6Member2 : StakeholderListElement :=
  ⟨"baz.qux", "did:example:baz", ⟨"k2", .wellFormed "KB"⟩⟩

/-- Fixture consortium for C6 with `numQueries = 2`. -/
def c6Consortium : Consortium := ⟨"foo.bar", ⟨2⟩, [c6Member1, c6Member2], ""⟩

/-- Fixture fetcher for C6. -/
def c6Fetch (domain : String) : Except String StakeholderFileData :=
  if domain = "bar.baz" then .ok c6Sfd1
  else if domain = "baz.qux" then .ok c6Sfd2
  else .error "unknown stakeholder"

/-- The flattened endpoint list of the C6 fixture (four endpoints). -/
def c6Flattened : List Endpoint :=
  [⟨"https://bar.baz/webapi/123456", "bar.baz"⟩, ⟨"https://bar.baz/webapi/654321", "bar.baz"⟩,
    ⟨"https://baz.qux/iyoubhlkn/", "baz.qux"⟩, ⟨"https://baz.foo/ukjhjtfyw/", "baz.qux"⟩]

/-- Counterexample to C6: for a consortium of two members each listing
two endpoints, discovery does flatten to four endpoints, but
`GetEndpoints` returns only two of them — selection is not the identity
and the flattened list is not returned unchanged (the repository's test
requires exactly 2 endpoints here). -/
theorem getEndpoints_not_identity_counterexample :
    discoverMembers c6Fetch c6Consortium.members = .ok c6Flattened ∧
    c6Flattened.length = 4 ∧
    EndpointService.GetEndpoints c6Fetch c6Consortium c6Flattened =
      .ok (c6Flattened.take 2) ∧
    (c6Flattened.take 2).length = 2 ∧
    c6Flattened.take 2 ≠ c6Flattened := by
  exact ⟨rfl, rfl, rfl, rfl, by decide⟩

/-- C6 as amended: discovery returns the flattened concatenation of
every member's stakeholder endpoints, but selection is not the identity:
`GetEndpoints` returns `numQueries` of the discovered endpoints (all of
them only when `numQueries` is zero or exceeds the list length), so a
consortium of two members each listing two endpoints with
`numQueries = 2` yields two endpoints. -/
theorem getEndpoints_policy_selection
    (fetch : String → Except String StakeholderFileData)
    (sf : StakeholderListElement → StakeholderFileData)
    (c : Consortium) (selOrder : List Endpoint)
    (hfetch : ∀ m ∈ c.members, fetch m.domain = .ok (sf m))
    (hperm : selOrder.Perm (flattenEndpoints sf c.members)) :
    discoverMembers fetch c.members = .ok (flattenEndpoints sf c.members) ∧
    EndpointService.GetEndpoints fetch c selOrder =
      .ok (selOrder.take
        (if c.policy.numQueries = 0 ∨
            c.policy.numQueries > (flattenEndpoints sf c.members).length
          then (flattenEndpoints sf c.members).length else c.policy.numQueries)) ∧
    (selOrder.take
        (if c.policy.numQueries = 0 ∨
            c.policy.numQueries > (flattenEndpoints sf c.members).length
          then (flattenEndpoints sf c.members).length else c.policy.numQueries)).length =
      (if c.policy.numQueries = 0 ∨
          c.policy.numQueries > (flattenEndpoints sf c.members).length
        then (flattenEndpoints sf c.members).length else c.policy.numQueries) := by
  have hdisc : ∀ ms : List StakeholderListElement, (∀ m ∈ ms, fetch m.domain = .ok (sf m)) →
      discoverMembers fetch ms = .ok (flattenEndpoints sf ms) := by
    intro ms
    induction ms with
    | nil => intro _; rfl
    | cons m rest ih =>
      intro hall
      have hm : fetch m.domain = .ok (sf m) := hall m (by simp)
      have hr : discoverMembers fetch rest = .ok (flattenEndpoints sf rest) :=
        ih (fun x hx => hall x (by simp [hx]))
      simp only [discoverMembers, hm, hr, flattenEndpoints]
  have h1 := hdisc c.members hfetch
  refine ⟨h1, ?_, ?_⟩
  · simp only [EndpointService.GetEndpoints, h1, selectEndpoints]
  · have hlen : selOrder.length = (flattenEndpoints sf c.members).length :=
      hperm.length_eq
    rw [List.length_take]
    split_ifs <;> omega

/-- Witness for the amended C6 at the fixture consortium. -/
theorem getEndpoints_policy_selection_witness :
    discoverMembers c6Fetch c6Consortium.members =
      .ok (flattenEndpoints
        (fun m => if m.domain = "bar.baz" then c6Sfd1 else c6Sfd2) c6Consortium.members) ∧
    EndpointService.GetEndpoints c6Fetch c6Consortium c6Flattened =
      .ok (c6Flattened.take
        (if c6Consortium.policy.numQueries = 0 ∨
            c6Consortium.policy.numQueries >
              (flattenEndpoints
                (fun m => if m.domain = "bar.baz" then c6Sfd1 else c6Sfd2)
                c6Consortium.members).length
          then (flattenEndpoints
              (fun m => if m.domain = "bar.baz" then c6Sfd1 else c6Sfd2)
              c6Consortium.members).length
          else c6Consortium.policy.numQueries)) ∧
    (c6Flattened.take
        (if c6Consortium.policy.numQueries = 0 ∨
            c6Consortium.policy.numQueries >
              (flattenEndpoints
                (fun m => if m.domain = "bar.baz" then c6Sfd1 else c6Sfd2)
                c6Consortium.members).length
          then (flattenEndpoints
              (fun m => if m.domain = "bar.baz" then c6Sfd1 else c6Sfd2)
              c6Consortium.members).length
          else c6Consortium.policy.numQueries)).length =
      (if c6Consortium.policy.numQueries = 0 ∨
          c6Consortium.policy.numQueries >
            (flattenEndpoints
              (fun m => if m.domain = "bar.baz" then c6Sfd1 else c6Sfd2)
              c6Consortium.members).length
        then (flattenEndpoints
            (fun m => if m.domain = "bar.baz" then c6Sfd1 else c6Sfd2)
            c6Consortium.members).length
        else c6Consortium.policy.numQueries) :=
  getEndpoints_policy_selection c6Fetch
    (fun m => if m.domain = "bar.baz" then c6Sfd1 else c6Sfd2)
    c6Consortium c6Flattened
    (by intro m hm; simp [c6Consortium] at hm; rcases hm with rfl | rfl <;> rfl)
    (by decide)

end TrustblocDID
